import Mathlib

/-!
Verification development for the snowflake-gorm node-identity subsystem.

The embedding follows the Go sources: the gorm `NodeIdAllocator.Alloc`
reconciliation loop, the `TimeSynchronizer` (`Async`, `updateDB`), the
hash node-id strategy (xxhash64 based) and the random strategy.
Machine integers (int64, uint64) are modelled as `Int` / `Nat` with
explicit reduction modulo 2^64 where the source relies on wrap-around
(inside xxhash); timestamps and durations never approach 2^63 in any
instantiation, so plain `Int` is faithful for them.
-/

namespace SnowflakeGorm

/-! ### xxhash64 (cespare/xxhash v2, seed 0), over `Nat` mod 2^64 -/

def p1 : Nat := 11400714785074694791
def p2 : Nat := 14029467366897019727
def p3 : Nat := 1609587929392839161
def p4 : Nat := 9650029242287828579
def p5 : Nat := 2870177450012600261

def mask64 (x : Nat) : Nat := x % 2 ^ 64

/-- Rotate a 64-bit value (given `x < 2^64`) left by `r` bits:
the two summands occupy disjoint bit ranges, so `+` is the bitwise or. -/
def rol (x r : Nat) : Nat := (x * 2 ^ r) % 2 ^ 64 + x / 2 ^ (64 - r)

/-- `round(acc, input)` of xxhash64. -/
def xxRound (acc input : Nat) : Nat := mask64 (rol (mask64 (acc + input * p2)) 31 * p1)

/-- `mergeRound(acc, val)` of xxhash64. -/
def xxMergeRound (acc val : Nat) : Nat :=
  mask64 (mask64 ((acc ^^^ xxRound 0 val) * p1) + p4)

/-- Little-endian read of 8 bytes. -/
def u64le (b1 b2 b3 b4 b5 b6 b7 b8 : Nat) : Nat :=
  b1 + 256 * (b2 + 256 * (b3 + 256 * (b4 + 256 * (b5 + 256 * (b6 + 256 * (b7 + 256 * b8))))))

/-- Little-endian read of 4 bytes. -/
def u32le (b1 b2 b3 b4 : Nat) : Nat := b1 + 256 * (b2 + 256 * (b3 + 256 * b4))

def avalanche (h0 : Nat) : Nat :=
  let h1 := h0 ^^^ (h0 >>> 33)
  let h2 := mask64 (h1 * p2)
  let h3 := h2 ^^^ (h2 >>> 29)
  let h4 := mask64 (h3 * p3)
  h4 ^^^ (h4 >>> 32)

/-- The 32-byte block loop of xxhash64: runs while at least 32 bytes remain
(the deep cons pattern is Go's `for len(b) >= 32`). -/
def xxBlocks : Nat × Nat × Nat × Nat → List Nat → (Nat × Nat × Nat × Nat) × List Nat
  | v, c01 :: c02 :: c03 :: c04 :: c05 :: c06 :: c07 :: c08 ::
       c09 :: c10 :: c11 :: c12 :: c13 :: c14 :: c15 :: c16 ::
       c17 :: c18 :: c19 :: c20 :: c21 :: c22 :: c23 :: c24 ::
       c25 :: c26 :: c27 :: c28 :: c29 :: c30 :: c31 :: c32 :: rest =>
    xxBlocks
      (xxRound v.1 (u64le c01 c02 c03 c04 c05 c06 c07 c08),
       xxRound v.2.1 (u64le c09 c10 c11 c12 c13 c14 c15 c16),
       xxRound v.2.2.1 (u64le c17 c18 c19 c20 c21 c22 c23 c24),
       xxRound v.2.2.2 (u64le c25 c26 c27 c28 c29 c30 c31 c32))
      rest
  | v, b => (v, b)

/-- The 8-byte tail loop of xxhash64 (Go's `for len(b) >= 8`). -/
def xxTail8 : Nat → List Nat → Nat × List Nat
  | h, c1 :: c2 :: c3 :: c4 :: c5 :: c6 :: c7 :: c8 :: rest =>
    xxTail8 (mask64 (mask64 (rol (h ^^^ xxRound 0 (u64le c1 c2 c3 c4 c5 c6 c7 c8)) 27 * p1) + p4))
      rest
  | h, b => (h, b)

/-- The 4-byte tail step of xxhash64 (Go's `if len(b) >= 4`, at most once). -/
def xxTail4 : Nat → List Nat → Nat × List Nat
  | h, c1 :: c2 :: c3 :: c4 :: rest =>
    (mask64 (mask64 (rol (h ^^^ mask64 (u32le c1 c2 c3 c4 * p1)) 23 * p2) + p3), rest)
  | h, b => (h, b)

/-- The single-byte tail loop of xxhash64. -/
def xxBytes (h : Nat) : List Nat → Nat
  | [] => h
  | c :: rest => xxBytes (mask64 (rol (h ^^^ mask64 (c * p5)) 11 * p1)) rest

/-- `Sum64` of cespare/xxhash v2 with seed 0, on a byte list. -/
def xxh64 (b : List Nat) : Nat :=
  let n := b.length
  let start : Nat × List Nat :=
    if 32 ≤ n then
      let vr := xxBlocks (mask64 (p1 + p2), p2, 0, 2 ^ 64 - p1) b
      let v := vr.1
      let h := mask64 (rol v.1 1 + rol v.2.1 7 + rol v.2.2.1 12 + rol v.2.2.2 18)
      (xxMergeRound (xxMergeRound (xxMergeRound (xxMergeRound h v.1) v.2.1) v.2.2.1) v.2.2.2,
       vr.2)
    else (p5, b)
  let h1 := mask64 (start.1 + n)
  let t8 := xxTail8 h1 start.2
  let t4 := xxTail4 t8.1 t8.2
  avalanche (xxBytes t4.1 t4.2)

/-- Bytes of an ASCII string (the node-id keys produced by `GetNodeIdKey`
are ASCII, where UTF-8 bytes coincide with code points). -/
def strBytes (s : String) : List Nat := s.data.map (fun c => c.toNat)

/-- `binary.LittleEndian.PutUint64(b, uint64(nodeId))`: the 8 little-endian
bytes of `nodeId` reduced mod 2^64 (Go two's-complement conversion). -/
def le8 (n : Int) : List Nat :=
  let u := (Int.emod n (2 ^ 64)).toNat
  [u % 256, u / 2 ^ 8 % 256, u / 2 ^ 16 % 256, u / 2 ^ 24 % 256,
   u / 2 ^ 32 % 256, u / 2 ^ 40 % 256, u / 2 ^ 48 % 256, u / 2 ^ 56 % 256]

/-- `HashNodeIdAllocator.Alloc`: `int64(xxhash(key) % 1024)`. -/
def HashAlloc (nodeIdKey : String) : Int := Int.ofNat (xxh64 (strBytes nodeIdKey) % 1024)

/-- `HashNodeIdAllocator.Migration`: `int64(xxhash(le8(nodeId)) % 1024)`. -/
def HashMigration (nodeId : Int) : Int := Int.ofNat (xxh64 (le8 nodeId) % 1024)

/-! ### Random strategy (nodeid/rand.go) -/

/-- `math/rand/v2` `rand.Int64N(n)`: a pseudo-random value uniform in `[0, n)`,
modelled as a function of the generator draw `r` (every residue class mod `n`
is attained by some draw, and no value outside `[0, n)` ever is). -/
def Int64N (n : Int) (r : Nat) : Int := Int.ofNat (r % n.toNat)

/-- `RandNodeIdAllocator.Alloc`: `rand.Int64N(1023)`. -/
def RandAlloc (r : Nat) : Int := Int64N 1023 r

/-- `RandNodeIdAllocator.Migration`: ignores its input, `rand.Int64N(1023)`. -/
def RandMigration (_nodeId : Int) (r : Nat) : Int := Int64N 1023 r

/-! ### Data model and store

The persisted record `model.SnowflakeKv` (columns from
`nodeid/gorm/model/pgsql.sql`).  Timestamps (`time.Time`) are modelled as
millisecond `Int`s; the nilable `Created *time.Time` as `Option Int`. -/

structure SnowflakeKv where
  key : String
  nodeID : Int
  time : Int
  created : Option Int
  updated : Int
deriving Repr, DecidableEq

/-- The persistent identity store: the rows of the `snowflake_kv` table. -/
abbrev Store := List SnowflakeKv

/-- Modelled from the spec: the gorm-gen data-access layer (package
`nodeid/gorm/model/dao`, generated code not present under src) — point
lookup `find(key, nodeId) → Record | NotFound` of §6, as used by
`Alloc`'s `Where(Key.Eq(...), NodeID.Eq(...)).First()`. -/
def findKV (store : Store) (k : String) (n : Int) : Option SnowflakeKv :=
  store.find? (fun r => r.key == k && r.nodeID == n)

/-- Modelled from the spec: store `insert(Record)` of §6, as used by
`Alloc`'s `Create(saved)`. -/
def createKV (store : Store) (r : SnowflakeKv) : Store := store ++ [r]

/-- Modelled from the spec: store `update(key, nodeId, fields)` of §6, as
used by `Alloc`'s `Where(Key.Eq(...), NodeID.Eq(...)).Updates(saved)`.
GORM's struct-`Updates` skips zero/nil fields; `Alloc` nils `Created`
before updating precisely so the creation timestamp is preserved, which is
reflected here by keeping `created` untouched. -/
def updateKV (store : Store) (k : String) (n : Int) (v : SnowflakeKv) : Store :=
  store.map (fun r =>
    if r.key == k && r.nodeID == n then
      { r with nodeID := v.nodeID, time := v.time, updated := v.updated }
    else r)

/-! ### Go integer helpers -/

/-- Go's `int64` division truncates toward zero (`time.Duration.Microseconds`
and `.Milliseconds` divide by 1000 and 1e6 this way). -/
def goDiv (a b : Int) : Int := Int.tdiv a b

/-- `time.Duration.Microseconds()` for a duration given in nanoseconds. -/
def durMicroseconds (ns : Int) : Int := goDiv ns 1000

/-- `time.Duration.Milliseconds()` for a duration given in nanoseconds. -/
def durMilliseconds (ns : Int) : Int := goDiv ns 1000000

/-! ### The gorm NodeIdAllocator.Alloc reconciliation loop -/

/-- A node-id strategy (the `snowflake.NodeIdAllocator` interface held by the
gorm allocator): `Alloc() (int64, error)` and `Migration(int64) (int64, error)`. -/
instance : DecidableEq (Except String Int) := fun x y =>
  match x, y with
  | Except.error a, Except.error b =>
    if h : a = b then isTrue (by rw [h]) else isFalse (fun hc => by cases hc; exact h rfl)
  | Except.error _, Except.ok _ => isFalse (fun hc => by cases hc)
  | Except.ok _, Except.error _ => isFalse (fun hc => by cases hc)
  | Except.ok a, Except.ok b =>
    if h : a = b then isTrue (by rw [h]) else isFalse (fun hc => by cases hc; exact h rfl)

structure Strategy where
  allocId : Except String Int
  migration : Int → Except String Int

/-- The strategy wired in by `NewNodeIdAllocator`: `NewHashNodeIdAllocator(nodeIdKey)`. -/
def hashStrategy (nodeIdKey : String) : Strategy :=
  { allocId := Except.ok (HashAlloc nodeIdKey)
    migration := fun n => Except.ok (HashMigration n) }

/-- Observable outcome of one `Alloc` call: the returned value or error, the
resulting store, total nanoseconds slept, number of `Migration` calls made,
whether the insert (`Create`) branch ran, and the last candidate node id
produced by the strategy. -/
structure AllocOutcome where
  ret : Except String Int
  store : Store
  sleepNs : Int
  migrations : Nat
  inserted : Bool
  candidate : Int
deriving Repr, DecidableEq

/-- The `for` loop of `NodeIdAllocator.Alloc` (gorm), fuel-indexed: `none`
means the loop is still running after `fuel` iterations (the Go loop is
unbounded).  Each iteration: look up `(key, nodeId)`; if absent, create and
return; if the saved watermark is ahead of `nowMilli`, either sleep for the
configured drift and return (when `nowMilli - drift.Microseconds() ≤ saved.Time`)
or migrate the candidate and continue; otherwise contend if the record is
stale, update the watermark and return. -/
def AllocLoop (strat : Strategy) (key : String) (nowMilli driftNs contentionNs : Int) :
    Nat → Int → Store → Nat → Option AllocOutcome
  | 0, _, _, _ => none
  | fuel + 1, nodeId, store, migr =>
    match findKV store key nodeId with
    | none =>
      let saved : SnowflakeKv :=
        { key := key, nodeID := nodeId, time := nowMilli,
          created := some nowMilli, updated := nowMilli }
      some ⟨Except.ok saved.nodeID, createKV store saved, 0, migr, true, nodeId⟩
    | some saved =>
      if nowMilli < saved.time then
        if nowMilli - durMicroseconds driftNs ≤ saved.time then
          some ⟨Except.ok saved.nodeID, store, driftNs, migr, false, nodeId⟩
        else
          match strat.migration nodeId with
          | Except.error e => some ⟨Except.error e, store, 0, migr, false, nodeId⟩
          | Except.ok nodeId' =>
            AllocLoop strat key nowMilli driftNs contentionNs fuel nodeId' store (migr + 1)
      else
        let saved1 :=
          if nowMilli - durMilliseconds contentionNs > saved.time then
            { saved with nodeID := nodeId }
          else saved
        let saved2 := { saved1 with time := nowMilli, created := none, updated := nowMilli }
        some ⟨Except.ok saved2.nodeID, updateKV store key nodeId saved2, 0, migr, false, nodeId⟩

/-- `NodeIdAllocator.Alloc` (gorm): obtain the strategy candidate, then run
the reconciliation loop. -/
def Alloc (strat : Strategy) (key : String) (nowMilli driftNs contentionNs : Int)
    (store : Store) (fuel : Nat) : Option AllocOutcome :=
  match strat.allocId with
  | Except.error e => some ⟨Except.error e, store, 0, 0, false, 0⟩
  | Except.ok n => AllocLoop strat key nowMilli driftNs contentionNs fuel n store 0

/-! ### TimeSynchronizer -/

/-- `TimeSynchronizer.Async`: store `t` into the atomic watermark only when it
exceeds the current value by more than the 10 ms hysteresis threshold. -/
def Async (curr t : Int) : Int := if t > curr + 10 then t else curr

/-- `TimeSynchronizer.updateDB`: skip entirely while the watermark is at its
zero sentinel; otherwise write the watermark for this instance's identity key.
The write target is modelled from the spec: the store's
`updateByKey(key, fields)` of §6 (the gorm-gen dao layer is not under src;
the flush updates the record(s) stored under `nodeIdKey`, setting the
watermark and the updated timestamp). -/
def updateDB (curr : Int) (nodeIdKey : String) (nowT : Int) (store : Store) : Store :=
  if curr == 0 then store
  else store.map (fun r =>
    if r.key == nodeIdKey then { r with time := curr, updated := nowT } else r)

/-! ### Auxiliary definitions used by the theorems -/

/-- The `(key, nodeId)` pairs held by a store. -/
def kvPairs (s : Store) : List (String × Int) := s.map (fun r => (r.key, r.nodeID))

/-- Variant of `AllocLoop` with the contention-branch assignment
`saved.NodeID = nodeId` removed (`saved1 := saved` unconditionally); used to
state that the assignment never changes any value (claim C10). -/
def AllocLoopNC (strat : Strategy) (key : String) (nowMilli driftNs contentionNs : Int) :
    Nat → Int → Store → Nat → Option AllocOutcome
  | 0, _, _, _ => none
  | fuel + 1, nodeId, store, migr =>
    match findKV store key nodeId with
    | none =>
      let saved : SnowflakeKv :=
        { key := key, nodeID := nodeId, time := nowMilli,
          created := some nowMilli, updated := nowMilli }
      some ⟨Except.ok saved.nodeID, createKV store saved, 0, migr, true, nodeId⟩
    | some saved =>
      if nowMilli < saved.time then
        if nowMilli - durMicroseconds driftNs ≤ saved.time then
          some ⟨Except.ok saved.nodeID, store, driftNs, migr, false, nodeId⟩
        else
          match strat.migration nodeId with
          | Except.error e => some ⟨Except.error e, store, 0, migr, false, nodeId⟩
          | Except.ok nodeId' =>
            AllocLoopNC strat key nowMilli driftNs contentionNs fuel nodeId' store (migr + 1)
      else
        let saved2 := { saved with time := nowMilli, created := none, updated := nowMilli }
        some ⟨Except.ok saved2.nodeID, updateKV store key nodeId saved2, 0, migr, false, nodeId⟩

/-- The forward orbit of the key `"k"`'s hash candidate under `HashMigration`
(it enters the cycle 901 → 818 → 188 → 901, so this list is closed under
`HashMigration`). -/
def orbitK : List Int :=
  [867, 950, 120, 399, 142, 367, 819, 481, 326, 727, 850, 113, 623, 832, 765,
   517, 82, 159, 674, 30, 207, 315, 938, 422, 954, 9, 396, 809, 244, 91, 183,
   794, 516, 901, 818, 188]

/-- A store holding, for every node id on the orbit of `"k"`, a record whose
watermark (1000005) is slightly ahead of the wall time 1000000 used below. -/
def badStoreK : Store := orbitK.map (fun m => ⟨"k", m, 1000005, none, 0⟩)

end SnowflakeGorm

namespace SnowflakeGorm

/-! ### Helper lemmas -/

/-- A record found by the `(key, nodeId)` point lookup carries exactly that
key and node id. -/
theorem findKV_some {store : Store} {k : String} {n : Int} {r : SnowflakeKv}
    (h : findKV store k n = some r) : r.key = k ∧ r.nodeID = n := by
  have hp := List.find?_some h
  simp only [Bool.and_eq_true, beq_iff_eq] at hp
  exact hp

/-- `Async` never decreases the watermark across a sequence of pushes. -/
theorem le_foldl_Async (l : List Int) : ∀ w : Int, w ≤ List.foldl Async w l := by
  induction l with
  | nil => intro w; exact le_refl w
  | cons t rest ih =>
    intro w
    have h1 : w ≤ Async w t := by
      unfold Async
      split
      · omega
      · exact le_refl w
    exact le_trans h1 (ih (Async w t))

/-- Structural behaviour of a fold of `Async`: every pushed value is within
the 10 ms hysteresis of the final watermark, and the final watermark is the
initial one or one of the pushed values. -/
theorem foldl_Async_spec (l : List Int) : ∀ w : Int,
    (∀ t ∈ l, t ≤ List.foldl Async w l + 10) ∧
    (List.foldl Async w l = w ∨ List.foldl Async w l ∈ l) := by
  induction l with
  | nil => intro w; exact ⟨fun t ht => absurd ht (List.not_mem_nil t), Or.inl rfl⟩
  | cons t rest ih =>
    intro w
    obtain ⟨ihle, ihmem⟩ := ih (Async w t)
    constructor
    · intro s hs
      rcases List.mem_cons.mp hs with hst | hsr
      · subst hst
        have h1 : s ≤ Async w s + 10 := by
          unfold Async; split <;> omega
        have h2 : Async w s ≤ List.foldl Async (Async w s) rest := le_foldl_Async rest _
        simp only [List.foldl_cons]
        omega
      · exact ihle s hsr
    · rcases ihmem with heq | hmem
      · rw [List.foldl_cons, heq]
        unfold Async
        split
        · exact Or.inr (List.mem_cons_self t rest)
        · exact Or.inl rfl
      · exact Or.inr (List.mem_cons_of_mem t (by simpa using hmem))

/-- Writing back a record whose node id equals the lookup node id leaves the
`(key, nodeId)` pairs of the store unchanged. -/
theorem kvPairs_updateKV {store : Store} {k : String} {n : Int} {v : SnowflakeKv}
    (hv : v.nodeID = n) : kvPairs (updateKV store k n v) = kvPairs store := by
  unfold kvPairs updateKV
  rw [List.map_map]
  apply List.map_congr_left
  intro r _
  by_cases hc : (r.key == k && r.nodeID == n) = true
  · obtain ⟨hrk, hrn⟩ : r.key = k ∧ r.nodeID = n := by
      simpa [Bool.and_eq_true, beq_iff_eq] using hc
    simp [Function.comp, hc, hv, hrk, hrn]
  · simp [Function.comp, hc]

/-- `updateKV` preserves, for any key, how many records carry that key. -/
theorem countP_key_updateKV (store : Store) (k : String) (n : Int) (v : SnowflakeKv)
    (k0 : String) :
    List.countP (fun r => r.key == k0) (updateKV store k n v) =
      List.countP (fun r => r.key == k0) store := by
  unfold updateKV
  rw [List.countP_map]
  apply List.countP_congr
  intro r _
  by_cases hc : (r.key == k && r.nodeID == n) = true
  · simp [Function.comp, hc]
  · simp [Function.comp, hc]

/-- With a nonnegative configured clock drift, one iteration of `AllocLoop`
always returns: the lookup-miss branch creates, an ahead-of-time watermark
takes the bounded-wait branch (its condition
`nowMilli - drift.Microseconds() ≤ saved.Time` cannot fail), and otherwise
the record is updated.  In particular the migration branch is unreachable. -/
theorem AllocLoop_one (strat : Strategy) (key : String) (nowMilli driftNs contentionNs : Int)
    (fuel : Nat) (n : Int) (store : Store) (migr : Nat) (hd : 0 ≤ driftNs) :
    AllocLoop strat key nowMilli driftNs contentionNs (fuel + 1) n store migr =
      match findKV store key n with
      | none =>
        some ⟨Except.ok n, createKV store ⟨key, n, nowMilli, some nowMilli, nowMilli⟩,
              0, migr, true, n⟩
      | some saved =>
        if nowMilli < saved.time then
          some ⟨Except.ok saved.nodeID, store, driftNs, migr, false, n⟩
        else
          let saved1 :=
            if nowMilli - durMilliseconds contentionNs > saved.time then
              { saved with nodeID := n }
            else saved
          let saved2 := { saved1 with time := nowMilli, created := none, updated := nowMilli }
          some ⟨Except.ok saved2.nodeID, updateKV store key n saved2, 0, migr, false, n⟩ := by
  have hmicro : 0 ≤ durMicroseconds driftNs :=
    Int.tdiv_nonneg hd (by norm_num)
  simp only [AllocLoop]
  cases hf : findKV store key n with
  | none => rfl
  | some saved =>
    dsimp only
    by_cases ht : nowMilli < saved.time
    · rw [if_pos ht, if_pos ht,
        if_pos (show nowMilli - durMicroseconds driftNs ≤ saved.time by omega)]
    · rw [if_neg ht, if_neg ht]

set_option maxRecDepth 8000 in
/-- On the negative-drift counterexample configuration, the reconciliation
loop never leaves the orbit of key `"k"` and never returns, for any fuel. -/
theorem badK_loops : ∀ (fuel : Nat) (m : Int) (migr : Nat) (c : Int), m ∈ orbitK →
    AllocLoop (hashStrategy "k") "k" 1000000 (-(10 ^ 9)) c fuel m badStoreK migr = none := by
  have hfind : ∀ x ∈ orbitK,
      findKV badStoreK "k" x = some ⟨"k", x, 1000005, none, 0⟩ := by decide
  have hcl : ∀ x ∈ orbitK, HashMigration x ∈ orbitK := by decide
  intro fuel
  induction fuel with
  | zero => intro m migr c _; rfl
  | succ fuel ih =>
    intro m migr c hm
    simp only [AllocLoop]
    rw [hfind m hm]
    dsimp only
    rw [if_pos (by norm_num), if_neg (by decide)]
    exact ih (HashMigration m) (migr + 1) c (hcl m hm)

/-- The reconciliation loop preserves distinctness of `(key, nodeId)` pairs:
records are created only after a lookup miss for exactly that pair, and
updates never change a record's pair. -/
theorem AllocLoop_nodup :
    ∀ (fuel : Nat) (strat : Strategy) (key : String) (nowMilli driftNs contentionNs n : Int)
      (store : Store) (migr : Nat) (res : AllocOutcome),
      (kvPairs store).Nodup →
      AllocLoop strat key nowMilli driftNs contentionNs fuel n store migr = some res →
      (kvPairs res.store).Nodup := by
  intro fuel
  induction fuel with
  | zero =>
    intro strat key nowMilli driftNs contentionNs n store migr res hnd hres
    exact absurd hres (by simp [AllocLoop])
  | succ fuel ih =>
    intro strat key nowMilli driftNs contentionNs n store migr res hnd hres
    simp only [AllocLoop] at hres
    cases hf : findKV store key n with
    | none =>
      rw [hf] at hres
      dsimp only at hres
      obtain rfl := Option.some.inj hres
      have hnotin : (key, n) ∉ kvPairs store := by
        intro hmem
        obtain ⟨r, hr, hpair⟩ := List.mem_map.mp hmem
        obtain ⟨hk, hn⟩ := Prod.mk.injEq .. ▸ hpair
        have hf' : store.find? (fun r => r.key == key && r.nodeID == n) = none := hf
        have hall := List.find?_eq_none.mp hf' r hr
        simp [hk, hn] at hall
      simp only [kvPairs, createKV, List.map_append, List.map_cons, List.map_nil]
      rw [List.nodup_append]
      refine ⟨hnd, List.nodup_singleton _, ?_⟩
      intro a ha hmem
      simp only [List.mem_cons, List.not_mem_nil, or_false] at hmem
      subst hmem
      exact hnotin ha
    | some saved =>
      rw [hf] at hres
      dsimp only at hres
      have hsn := (findKV_some hf).2
      by_cases ht : nowMilli < saved.time
      · rw [if_pos ht] at hres
        by_cases hw : nowMilli - durMicroseconds driftNs ≤ saved.time
        · rw [if_pos hw] at hres
          obtain rfl := Option.some.inj hres
          exact hnd
        · rw [if_neg hw] at hres
          cases hmi : strat.migration n with
          | error e =>
            rw [hmi] at hres
            dsimp only at hres
            obtain rfl := Option.some.inj hres
            exact hnd
          | ok n' =>
            rw [hmi] at hres
            dsimp only at hres
            exact ih strat key nowMilli driftNs contentionNs n' store (migr + 1) res hnd hres
      · rw [if_neg ht] at hres
        obtain rfl := Option.some.inj hres
        have hv :
            ({ (if nowMilli - durMilliseconds contentionNs > saved.time then
                  { saved with nodeID := n }
                else saved) with
              time := nowMilli, created := none, updated := nowMilli } : SnowflakeKv).nodeID
              = n := by
          dsimp only
          split <;> simp [hsn]
        have hpairs := @kvPairs_updateKV store key n _ hv
        dsimp only
        rw [hpairs]
        exact hnd

/-! ### Claim theorems -/

/-- C1: the claim says `Alloc` takes the bounded-wait branch iff the gap
`saved.Time - now` is at most the configured `acceptableClockDrift`, and
migrates whenever the gap exceeds it.  The code compares against
`acceptableClockDrift.Microseconds()` with the subtraction on the wrong
side, so at the failing input — drift 100 ms (`10^8` ns), stored watermark
200 ms ahead of `nowMilli = 1000000` — the gap (200 ms) exceeds the drift
(100 ms), yet `Alloc` still takes the bounded-wait branch: it sleeps the
full drift, performs zero migrations, leaves the store unchanged and
returns the same node id. -/
theorem C1_wait_despite_exceeding_drift :
    Alloc (hashStrategy "k") "k" 1000000 (10 ^ 8) (5 * 10 ^ 9)
      [⟨"k", HashAlloc "k", 1000200, none, 0⟩] 1 =
      some ⟨Except.ok (HashAlloc "k"), [⟨"k", HashAlloc "k", 1000200, none, 0⟩],
            10 ^ 8, 0, false, HashAlloc "k"⟩ ∧
    ¬ ((1000200 : Int) - 1000000 ≤ durMilliseconds (10 ^ 8)) := by
  constructor
  · decide
  · decide

/-- C2: a periodic flush (`TimeSynchronizer.updateDB`) only ever touches the
store records held under this instance's identity key: the store keeps the
same number of records, every record with a different key is still present
afterwards, and every record with a different key present afterwards was
there before. -/
theorem C2_flush_frame :
    ∀ (curr : Int) (nodeIdKey : String) (nowT : Int) (store : Store),
      (updateDB curr nodeIdKey nowT store).length = store.length ∧
      (∀ r ∈ store, r.key ≠ nodeIdKey → r ∈ updateDB curr nodeIdKey nowT store) ∧
      (∀ r ∈ updateDB curr nodeIdKey nowT store, r.key ≠ nodeIdKey → r ∈ store) := by
  intro curr k nowT store
  unfold updateDB
  by_cases hc : (curr == 0) = true
  · rw [if_pos hc]
    exact ⟨rfl, fun r hr _ => hr, fun r hr _ => hr⟩
  · rw [if_neg hc]
    refine ⟨List.length_map _ _, ?_, ?_⟩
    · intro r hr hrk
      have heq : (if r.key == k then { r with time := curr, updated := nowT } else r) = r := by
        rw [if_neg]
        simp [hrk]
      have := List.mem_map_of_mem
        (fun r => if r.key == k then { r with time := curr, updated := nowT } else r) hr
      simpa only [heq] using this
    · intro r hr hrk
      obtain ⟨s, hs, hsr⟩ := List.mem_map.mp hr
      by_cases hsk : (s.key == k) = true
      · exfalso
        rw [if_pos hsk] at hsr
        apply hrk
        rw [← hsr]
        simpa using hsk
      · rw [if_neg hsk] at hsr
        rw [← hsr]
        exact hs

/-- C2 witness: a record under another key survives a concrete flush. -/
theorem C2_flush_frame_witness :
    (⟨"other", 1, 2, none, 3⟩ : SnowflakeKv) ∈ updateDB 42 "me" 9 [⟨"other", 1, 2, none, 3⟩] :=
  (C2_flush_frame 42 "me" 9 [⟨"other", 1, 2, none, 3⟩]).2.1 ⟨"other", 1, 2, none, 3⟩
    (List.mem_cons_self _ _) (by decide)

/-- C5: the claim says a sequence of `Async` pushes starting from watermark 0
leaves the watermark at the maximum observed value.  It does not: pushing
the single value 5 (which is the maximum observed) leaves the watermark at
0, because `Async` ignores values within the 10 ms hysteresis threshold of
the current watermark. -/
theorem C5_not_max :
    List.foldl Async 0 [(5 : Int)] = 0 ∧ (5 : Int) ∈ [(5 : Int)] ∧ (0 : Int) ≠ 5 := by
  decide

/-- C5 (amended): after any finite sequence of `Async` pushes from the
initial watermark 0, every pushed value exceeds the final watermark by at
most the 10 ms hysteresis (so nothing is dropped further than the
threshold), the final watermark is 0 or one of the pushed values, and for
the spec's example every ordering of the pushes `[100, 50, 300, 200]`
leaves the watermark at exactly 300. -/
theorem C5_hysteresis_max :
    ∀ l : List Int,
      (∀ t ∈ l, t ≤ List.foldl Async 0 l + 10) ∧
      (List.foldl Async 0 l = 0 ∨ List.foldl Async 0 l ∈ l) ∧
      (∀ l' : List Int, l'.Perm [100, 50, 300, 200] → List.foldl Async 0 l' = 300) := by
  intro l
  obtain ⟨h1, h2⟩ := foldl_Async_spec l 0
  refine ⟨h1, h2, ?_⟩
  intro l' hp
  obtain ⟨h1', h2'⟩ := foldl_Async_spec l' 0
  have h300 : (300 : Int) ∈ l' := hp.mem_iff.mpr (by norm_num)
  have hge : 290 ≤ List.foldl Async 0 l' := by
    have := h1' 300 h300
    omega
  rcases h2' with h0 | hmem
  · omega
  · have hm : List.foldl Async 0 l' ∈ ([100, 50, 300, 200] : List Int) := hp.subset hmem
    simp only [List.mem_cons, List.not_mem_nil, or_false] at hm
    rcases hm with h | h | h | h <;> omega

/-- C5 witness: concrete instances of the hysteresis bound and of the
example-sequence conclusion. -/
theorem C5_hysteresis_max_witness :
    (100 : Int) ≤ List.foldl Async 0 [(100 : Int)] + 10 ∧
      List.foldl Async 0 ([100, 50, 300, 200] : List Int) = 300 :=
  ⟨(C5_hysteresis_max [(100 : Int)]).1 100 (List.mem_cons_self _ _),
   (C5_hysteresis_max []).2.2 [100, 50, 300, 200] (List.Perm.refl _)⟩

/-- C7: the random strategy draws `rand.Int64N(1023)`, whose value set is
the half-open range `[0, 1023)`: for every generator draw the allocation and
the migration results are nonnegative and strictly below 1023, so the value
1023 — which the claim says is a possible output — is never produced. -/
theorem C7_rand_range :
    ∀ (r : Nat) (x : Int),
      0 ≤ RandAlloc r ∧ RandAlloc r < 1023 ∧
      0 ≤ RandMigration x r ∧ RandMigration x r < 1023 := by
  intro r x
  have h : r % 1023 < 1023 := Nat.mod_lt _ (by norm_num)
  refine ⟨?_, ?_, ?_, ?_⟩ <;> simp [RandAlloc, RandMigration, Int64N] <;> omega

/-- C8: a single `Async(t)` on watermark `w` stores `t` exactly when `t`
exceeds `w` by more than the 10 ms hysteresis threshold, and leaves the
watermark at `w` otherwise. -/
theorem C8_Async_threshold :
    ∀ w t : Int, (w + 10 < t → Async w t = t) ∧ (t ≤ w + 10 → Async w t = w) := by
  intro w t
  constructor
  · intro h
    unfold Async
    rw [if_pos h]
  · intro h
    unfold Async
    rw [if_neg (by omega)]

/-- C8 witness: both sides of the threshold at concrete inputs. -/
theorem C8_Async_threshold_witness : Async 0 20 = 20 ∧ Async 100 50 = 100 :=
  ⟨(C8_Async_threshold 0 20).1 (by norm_num), (C8_Async_threshold 100 50).2 (by norm_num)⟩

/-- C9: a flush tick that fires while the watermark is still at the zero
sentinel writes nothing: `updateDB` returns the store unchanged. -/
theorem C9_zero_watermark_skips_flush :
    ∀ (nodeIdKey : String) (nowT : Int) (store : Store),
      updateDB 0 nodeIdKey nowT store = store := by
  intro k nowT store
  rfl

/-- C6: the claim says that with the stored watermark at `now + driftAmount`
(`driftAmount` at most the acceptable drift), `Alloc` blocks for
approximately `driftAmount` within tolerance.  At the concrete input
`driftAmount = 100` ms and configured drift 1 s (`10^9` ns) the code sleeps
the full configured drift — 1000 ms — which is not within the repository
test tolerance (50 ms) of `driftAmount`. -/
theorem C6_sleeps_full_drift :
    Alloc (hashStrategy "k") "k" 1000000 (10 ^ 9) (5 * 10 ^ 9)
      [⟨"k", HashAlloc "k", 1000100, none, 0⟩] 1 =
      some ⟨Except.ok (HashAlloc "k"), [⟨"k", HashAlloc "k", 1000100, none, 0⟩],
            10 ^ 9, 0, false, HashAlloc "k"⟩ ∧
    ¬ (durMilliseconds (10 ^ 9) - 100 ≤ 50) := by
  constructor
  · decide
  · decide

/-- C6 (amended): if the stored watermark for the candidate `(key, nodeId)`
is `now + driftAmount` with `0 < driftAmount ≤` the acceptable drift (in
milliseconds) and the configured drift is nonnegative, then `Alloc` takes
the bounded-wait branch: it sleeps the full configured
`acceptableClockDrift` (not `driftAmount`), returns the original node id,
performs zero migrations, and leaves the store record unchanged. -/
theorem C6_bounded_wait :
    ∀ (key : String) (nowMilli g driftNs contentionNs upd : Int) (co : Option Int),
      0 < g → g ≤ durMilliseconds driftNs → 0 ≤ driftNs →
      Alloc (hashStrategy key) key nowMilli driftNs contentionNs
        [⟨key, HashAlloc key, nowMilli + g, co, upd⟩] 1 =
        some ⟨Except.ok (HashAlloc key), [⟨key, HashAlloc key, nowMilli + g, co, upd⟩],
              driftNs, 0, false, HashAlloc key⟩ := by
  intro key nowMilli g driftNs contentionNs upd co hg hgd hdn
  have hmicro : 0 ≤ durMicroseconds driftNs := Int.tdiv_nonneg hdn (by norm_num)
  have hfind : findKV [⟨key, HashAlloc key, nowMilli + g, co, upd⟩] key (HashAlloc key) =
      some ⟨key, HashAlloc key, nowMilli + g, co, upd⟩ := by
    simp [findKV, List.find?]
  show AllocLoop (hashStrategy key) key nowMilli driftNs contentionNs 1 (HashAlloc key)
      [⟨key, HashAlloc key, nowMilli + g, co, upd⟩] 0 = _
  simp only [AllocLoop]
  rw [hfind]
  dsimp only
  rw [if_pos (by omega), if_pos (by omega)]

/-- C6 witness: the amended bounded-wait behaviour at a concrete input. -/
theorem C6_bounded_wait_witness :
    Alloc (hashStrategy "w") "w" 500000 (2 * 10 ^ 9) (5 * 10 ^ 9)
      [⟨"w", HashAlloc "w", 500000 + 700, some 7, 8⟩] 1 =
      some ⟨Except.ok (HashAlloc "w"), [⟨"w", HashAlloc "w", 500000 + 700, some 7, 8⟩],
            2 * 10 ^ 9, 0, false, HashAlloc "w"⟩ :=
  C6_bounded_wait "w" 500000 700 (2 * 10 ^ 9) (5 * 10 ^ 9) 8 (some 7)
    (by norm_num) (by decide) (by norm_num)

/-- C4: the claim says every `Alloc` call after the first successful
allocation for a key updates the existing record.  On the bounded-wait path
it does not: with the record for `("k", HashAlloc "k")` already present and
its watermark 200 ms ahead of `nowMilli = 2000000`, `Alloc` returns the
same node id but leaves the store exactly as it was — the record's
watermark stays 2000200 instead of being updated to 2000000. -/
theorem C4_wait_path_no_update :
    Alloc (hashStrategy "k") "k" 2000000 (10 ^ 9) (5 * 10 ^ 9)
      [⟨"k", HashAlloc "k", 2000200, none, 0⟩] 1 =
      some ⟨Except.ok (HashAlloc "k"), [⟨"k", HashAlloc "k", 2000200, none, 0⟩],
            10 ^ 9, 0, false, HashAlloc "k"⟩ ∧
    (2000200 : Int) ≠ 2000000 := by
  constructor
  · decide
  · decide

/-- C4 (amended): (1) a record for a `(key, nodeId)` pair is created at most
once — the reconciliation loop preserves distinctness of the `(key, nodeId)`
pairs in the store, creating only after a lookup miss for that exact pair;
(2) with a nonnegative configured drift, once a record for
`(key, HashAlloc key)` exists, every later `Alloc` for that key finishes
without inserting: it either updates the existing record in place or (on
the bounded-wait rollback path) leaves it unchanged, and the number of
records under the key never grows. -/
theorem C4_create_once_then_reuse :
    (∀ (fuel : Nat) (strat : Strategy) (key : String) (nowMilli driftNs contentionNs n : Int)
       (store : Store) (migr : Nat) (res : AllocOutcome),
       (kvPairs store).Nodup →
       AllocLoop strat key nowMilli driftNs contentionNs fuel n store migr = some res →
       (kvPairs res.store).Nodup) ∧
    (∀ (key : String) (nowMilli driftNs contentionNs : Int) (store : Store) (fuel : Nat),
       0 ≤ driftNs →
       (∃ r ∈ store, r.key = key ∧ r.nodeID = HashAlloc key) →
       ∃ res, Alloc (hashStrategy key) key nowMilli driftNs contentionNs store (fuel + 1)
           = some res ∧
         res.inserted = false ∧
         List.countP (fun r => r.key == key) res.store =
           List.countP (fun r => r.key == key) store) := by
  refine ⟨AllocLoop_nodup, ?_⟩
  intro key nowMilli driftNs contentionNs store fuel hd hex
  show ∃ res,
      AllocLoop (hashStrategy key) key nowMilli driftNs contentionNs (fuel + 1)
        (HashAlloc key) store 0 = some res ∧
      res.inserted = false ∧
      List.countP (fun r => r.key == key) res.store =
        List.countP (fun r => r.key == key) store
  rw [AllocLoop_one _ _ _ _ _ _ _ _ _ hd]
  obtain ⟨r, hr, hrk, hrn⟩ := hex
  have hfs : (findKV store key (HashAlloc key)).isSome := by
    have : (store.find? (fun s => s.key == key && s.nodeID == HashAlloc key)).isSome := by
      rw [List.find?_isSome]
      exact ⟨r, hr, by simp [hrk, hrn]⟩
    exact this
  cases hf : findKV store key (HashAlloc key) with
  | none => rw [hf] at hfs; simp at hfs
  | some saved =>
    dsimp only
    by_cases ht : nowMilli < saved.time
    · rw [if_pos ht]
      exact ⟨_, rfl, rfl, rfl⟩
    · rw [if_neg ht]
      exact ⟨_, rfl, rfl, countP_key_updateKV store key (HashAlloc key) _ key⟩

/-- C4 witness: a later `Alloc` against an existing record at a concrete
input finishes without inserting and keeps the record count of the key. -/
theorem C4_create_once_then_reuse_witness :
    ∃ res, Alloc (hashStrategy "k") "k" 1000000 (10 ^ 9) (5 * 10 ^ 9)
        [⟨"k", HashAlloc "k", 5, some 1, 1⟩] 1 = some res ∧
      res.inserted = false ∧
      List.countP (fun r => r.key == "k") res.store =
        List.countP (fun r => r.key == "k")
          ([⟨"k", HashAlloc "k", 5, some 1, 1⟩] : Store) :=
  C4_create_once_then_reuse.2 "k" 1000000 (10 ^ 9) (5 * 10 ^ 9)
    [⟨"k", HashAlloc "k", 5, some 1, 1⟩] 0 (by norm_num)
    ⟨⟨"k", HashAlloc "k", 5, some 1, 1⟩, List.mem_cons_self _ _, rfl, rfl⟩

/-- C3: the claim asserts a retry ceiling — some bound `N` such that for
every store state `Alloc` finishes (with a result or a "could not allocate"
error) within `N` migration iterations.  No such bound exists: for every
`N`, on the store `badStoreK` (whose records cover the whole `HashMigration`
orbit of key `"k"` with watermarks slightly ahead of the wall time) and a
negative configured drift, the loop is still running after `N + 1`
iterations. -/
theorem C3_no_retry_ceiling :
    ¬ ∃ N : Nat, ∀ (key : String) (nowMilli driftNs contentionNs : Int) (store : Store),
      ∃ res, Alloc (hashStrategy key) key nowMilli driftNs contentionNs store (N + 1)
          = some res ∧ res.migrations ≤ N := by
  rintro ⟨N, h⟩
  obtain ⟨res, hres, -⟩ := h "k" 1000000 (-(10 ^ 9)) 0 badStoreK
  have h0 : Alloc (hashStrategy "k") "k" 1000000 (-(10 ^ 9)) 0 badStoreK (N + 1) =
      AllocLoop (hashStrategy "k") "k" 1000000 (-(10 ^ 9)) 0 (N + 1)
        (HashAlloc "k") badStoreK 0 := rfl
  rw [h0, badK_loops (N + 1) (HashAlloc "k") 0 0 (by decide)] at hres
  exact Option.noConfusion hres

/-- C3 (amended): `Alloc` has no retry-ceiling mechanism and no "could not
allocate" error.  Instead: (1) with a nonnegative configured drift the
migration branch is unreachable — every call returns from its first loop
iteration with zero additional migrations; (2) with a negative configured
drift the loop can run forever — on the orbit-covering store `badStoreK`
it returns nothing for every amount of fuel. -/
theorem C3_loop_behaviour :
    (∀ (strat : Strategy) (key : String) (nowMilli driftNs contentionNs n : Int)
       (store : Store) (migr : Nat) (fuel : Nat), 0 ≤ driftNs →
       ∃ res, AllocLoop strat key nowMilli driftNs contentionNs (fuel + 1) n store migr
           = some res ∧ res.migrations = migr) ∧
    (∀ N : Nat,
       Alloc (hashStrategy "k") "k" 1000000 (-(10 ^ 9)) 0 badStoreK N = none) := by
  constructor
  · intro strat key nowMilli driftNs contentionNs n store migr fuel hd
    rw [AllocLoop_one _ _ _ _ _ _ _ _ _ hd]
    cases hf : findKV store key n with
    | none => exact ⟨_, rfl, rfl⟩
    | some saved =>
      dsimp only
      by_cases ht : nowMilli < saved.time
      · rw [if_pos ht]
        exact ⟨_, rfl, rfl⟩
      · rw [if_neg ht]
        exact ⟨_, rfl, rfl⟩
  · intro N
    have h0 : Alloc (hashStrategy "k") "k" 1000000 (-(10 ^ 9)) 0 badStoreK N =
        AllocLoop (hashStrategy "k") "k" 1000000 (-(10 ^ 9)) 0 N
          (HashAlloc "k") badStoreK 0 := rfl
    rw [h0]
    exact badK_loops N (HashAlloc "k") 0 0 (by decide)

/-- C3 witness: the first-iteration return at a concrete nonnegative drift. -/
theorem C3_loop_behaviour_witness :
    (∃ res, AllocLoop (hashStrategy "k") "k" 1000000 (10 ^ 9) (5 * 10 ^ 9) 1
        (HashAlloc "k") [] 0 = some res ∧ res.migrations = 0) ∧
    Alloc (hashStrategy "k") "k" 1000000 (-(10 ^ 9)) 0 badStoreK 5 = none :=
  ⟨C3_loop_behaviour.1 (hashStrategy "k") "k" 1000000 (10 ^ 9) (5 * 10 ^ 9)
     (HashAlloc "k") [] 0 0 (by norm_num),
   C3_loop_behaviour.2 5⟩

/-- Overwriting the node-id field with its own value is the identity. -/
theorem setNodeID_self {s : SnowflakeKv} {n : Int} (h : s.nodeID = n) :
    ({ s with nodeID := n } : SnowflakeKv) = s := by
  cases s
  cases h
  rfl

/-- The reconciliation loop computes the same outcome with or without the
contention-branch assignment `saved.NodeID = nodeId`: the looked-up record
already carries that node id. -/
theorem AllocLoop_eq_NC :
    ∀ (fuel : Nat) (strat : Strategy) (key : String) (nowMilli driftNs contentionNs n : Int)
      (store : Store) (migr : Nat),
      AllocLoop strat key nowMilli driftNs contentionNs fuel n store migr =
        AllocLoopNC strat key nowMilli driftNs contentionNs fuel n store migr := by
  intro fuel
  induction fuel with
  | zero => intro strat key nowMilli driftNs contentionNs n store migr; rfl
  | succ fuel ih =>
    intro strat key nowMilli driftNs contentionNs n store migr
    simp only [AllocLoop, AllocLoopNC]
    cases hf : findKV store key n with
    | none => rfl
    | some saved =>
      dsimp only
      have hsn := (findKV_some hf).2
      by_cases ht : nowMilli < saved.time
      · rw [if_pos ht, if_pos ht]
        by_cases hw : nowMilli - durMicroseconds driftNs ≤ saved.time
        · rw [if_pos hw, if_pos hw]
        · rw [if_neg hw, if_neg hw]
          cases hmi : strat.migration n with
          | error e => rfl
          | ok n' =>
            dsimp only
            exact ih strat key nowMilli driftNs contentionNs n' store (migr + 1)
      · rw [if_neg ht, if_neg ht]
        have h1 : (if nowMilli - durMilliseconds contentionNs > saved.time then
            { saved with nodeID := n } else saved) = saved := by
          split
          · exact setNodeID_self hsn
          · rfl
        rw [h1]

/-- For every run of the reconciliation loop that ends in a non-insert
success, the returned node id equals the candidate most recently produced
by the strategy. -/
theorem AllocLoop_ok_candidate :
    ∀ (fuel : Nat) (strat : Strategy) (key : String) (nowMilli driftNs contentionNs n : Int)
      (store : Store) (migr : Nat) (res : AllocOutcome) (v : Int),
      AllocLoop strat key nowMilli driftNs contentionNs fuel n store migr = some res →
      res.inserted = false → res.ret = Except.ok v → v = res.candidate := by
  intro fuel
  induction fuel with
  | zero =>
    intro strat key nowMilli driftNs contentionNs n store migr res v hres
    exact absurd hres (by simp [AllocLoop])
  | succ fuel ih =>
    intro strat key nowMilli driftNs contentionNs n store migr res v hres hins hret
    simp only [AllocLoop] at hres
    cases hf : findKV store key n with
    | none =>
      rw [hf] at hres
      dsimp only at hres
      obtain rfl := Option.some.inj hres
      simp at hins
    | some saved =>
      rw [hf] at hres
      dsimp only at hres
      have hsn := (findKV_some hf).2
      by_cases ht : nowMilli < saved.time
      · rw [if_pos ht] at hres
        by_cases hw : nowMilli - durMicroseconds driftNs ≤ saved.time
        · rw [if_pos hw] at hres
          obtain rfl := Option.some.inj hres
          exact (Except.ok.inj hret).symm.trans hsn
        · rw [if_neg hw] at hres
          cases hmi : strat.migration n with
          | error e =>
            rw [hmi] at hres
            dsimp only at hres
            obtain rfl := Option.some.inj hres
            exact absurd hret (by simp)
          | ok n' =>
            rw [hmi] at hres
            dsimp only at hres
            exact ih strat key nowMilli driftNs contentionNs n' store (migr + 1) res v
              hres hins hret
      · rw [if_neg ht] at hres
        obtain rfl := Option.some.inj hres
        have hv : (if nowMilli - durMilliseconds contentionNs > saved.time then
            { saved with nodeID := n } else saved).nodeID = n := by
          split <;> simp [hsn]
        refine (Except.ok.inj hret).symm.trans ?_
        simpa using hv

/-- C10: the record fetched by `Alloc`'s lookup always carries the current
candidate node id (the query filters on both `key` and `nodeId`), so the
contention-branch assignment `saved.NodeID = nodeId` never changes any
value: the loop computes identical outcomes with and without it, and every
successful non-insert `Alloc` returns exactly the candidate most recently
produced by the strategy. -/
theorem C10_contention_assignment_noop :
    (∀ (store : Store) (k : String) (n : Int) (r : SnowflakeKv),
       findKV store k n = some r → r.key = k ∧ r.nodeID = n) ∧
    (∀ (fuel : Nat) (strat : Strategy) (key : String) (nowMilli driftNs contentionNs n : Int)
       (store : Store) (migr : Nat),
       AllocLoop strat key nowMilli driftNs contentionNs fuel n store migr =
         AllocLoopNC strat key nowMilli driftNs contentionNs fuel n store migr) ∧
    (∀ (fuel : Nat) (strat : Strategy) (key : String) (nowMilli driftNs contentionNs n : Int)
       (store : Store) (migr : Nat) (res : AllocOutcome) (v : Int),
       AllocLoop strat key nowMilli driftNs contentionNs fuel n store migr = some res →
       res.inserted = false → res.ret = Except.ok v → v = res.candidate) :=
  ⟨fun _ _ _ _ h => findKV_some h, AllocLoop_eq_NC, AllocLoop_ok_candidate⟩

/-- C10 witness: the with/without-contention agreement, the lookup fact and
the returned-candidate fact at concrete inputs. -/
theorem C10_contention_assignment_noop_witness :
    AllocLoop (hashStrategy "q") "q" 3000000 1000 1000 1 7 [⟨"q", 7, 5, some 1, 1⟩] 0 =
      AllocLoopNC (hashStrategy "q") "q" 3000000 1000 1000 1 7 [⟨"q", 7, 5, some 1, 1⟩] 0 ∧
    (⟨"q", 7, 5, some 1, 1⟩ : SnowflakeKv).nodeID = 7 ∧
    (7 : Int) = (⟨Except.ok 7, [⟨"q", 7, 3000000, some 1, 3000000⟩], 0, 0, false, 7⟩ :
      AllocOutcome).candidate :=
  ⟨C10_contention_assignment_noop.2.1 1 (hashStrategy "q") "q" 3000000 1000 1000 7
     [⟨"q", 7, 5, some 1, 1⟩] 0,
   (C10_contention_assignment_noop.1 [⟨"q", 7, 5, some 1, 1⟩] "q" 7 ⟨"q", 7, 5, some 1, 1⟩
     (by decide)).2,
   C10_contention_assignment_noop.2.2 1 (hashStrategy "q") "q" 3000000 1000 1000 7
     [⟨"q", 7, 5, some 1, 1⟩] 0
     ⟨Except.ok 7, [⟨"q", 7, 3000000, some 1, 3000000⟩], 0, 0, false, 7⟩ 7
     (by decide) rfl rfl⟩

end SnowflakeGorm
